import Mathlib

/-!
# threejs-hello-world: the per-frame loop of `src/index.js`

A shallow embedding of `src/index.js` and the properties of its easing table,
camera orbit, pick state, translation animator and frame driver.

Modelling conventions.

* JavaScript numbers are elements of an arbitrary linear ordered field `α`
  with a floor function (`ℚ` for evaluation, `ℝ` where `Math.cos` and
  `Math.sin` are the real functions); rounding is not modelled.
* `Math.cos`, `Math.sin`, `clock.getDelta()`, `Math.random()` and the result of
  `raycaster.intersectObjects` come from the host and are parameters.
* A scene object is named by its index in `scene.children` (`ObjId`); the scene
  is the table `ObjId → Mesh α`.
* A three.js colour is represented by its hex code: `setHex h` stores
  `Math.floor h`, `getHex` reads the stored code back.
-/

namespace ThreeHello

/-! ## Easing table (`EasingFunctions`, lines 9-38) -/

namespace EasingFunctions

variable {α : Type} [LinearOrderedField α]

/-- Source: `linear: t => t`. -/
def linear (t : α) : α := t

/-- Source: `easeInQuad: t => t * t`. -/
def easeInQuad (t : α) : α := t * t

/-- Source: `easeOutQuad: t => t * (2 - t)`. -/
def easeOutQuad (t : α) : α := t * (2 - t)

/-- Source: `easeInOutQuad: t => (t < 0.5 ? 2 * t * t : -1 + (4 - 2 * t) * t)`. -/
def easeInOutQuad (t : α) : α :=
  if t < 0.5 then 2 * t * t else -1 + (4 - 2 * t) * t

/-- Source: `easeInCubic: t => t * t * t`. -/
def easeInCubic (t : α) : α := t * t * t

/-- Source: `easeOutCubic: t => --t * t * t + 1`; the pre-decrement rebinds `t`
before any operand is read. -/
def easeOutCubic (t : α) : α :=
  let t := t - 1
  t * t * t + 1

/-- Source: `easeInOutCubic: t => t < 0.5 ? 4 * t * t * t :
(t - 1) * (2 * t - 2) * (2 * t - 2) + 1`. -/
def easeInOutCubic (t : α) : α :=
  if t < 0.5 then 4 * t * t * t else (t - 1) * (2 * t - 2) * (2 * t - 2) + 1

/-- Source: `easeInQuart: t => t * t * t * t`. -/
def easeInQuart (t : α) : α := t * t * t * t

/-- Source: `easeOutQuart: t => 1 - --t * t * t * t`. -/
def easeOutQuart (t : α) : α :=
  let t := t - 1
  1 - t * t * t * t

/-- Source: `easeInOutQuart: t => (t < 0.5 ? 8 * t * t * t * t :
1 - 8 * --t * t * t * t)`; the test reads `t` before the decrement. -/
def easeInOutQuart (t : α) : α :=
  if t < 0.5 then 8 * t * t * t * t
  else
    let t := t - 1
    1 - 8 * t * t * t * t

/-- Source: `easeInQuint: t => t * t * t * t * t`. -/
def easeInQuint (t : α) : α := t * t * t * t * t

/-- Source: `easeOutQuint: t => 1 + --t * t * t * t * t`. -/
def easeOutQuint (t : α) : α :=
  let t := t - 1
  1 + t * t * t * t * t

/-- Source: `easeInOutQuint: t => t < 0.5 ? 16 * t * t * t * t * t :
1 + 16 * --t * t * t * t * t`. -/
def easeInOutQuint (t : α) : α :=
  if t < 0.5 then 16 * t * t * t * t * t
  else
    let t := t - 1
    1 + 16 * t * t * t * t * t

end EasingFunctions

/-! ### The standard polynomial easing formulas, as the specification words them -/

section Standard

variable {α : Type} [LinearOrderedField α]

/-- Specification formula: ease-in of degree `n` is `t ^ n`. -/
def stdEaseIn (n : ℕ) (t : α) : α := t ^ n

/-- Specification formula: ease-out of degree `n` is `1 - (1 - t) ^ n`. -/
def stdEaseOut (n : ℕ) (t : α) : α := 1 - (1 - t) ^ n

/-- Specification formula: ease-in-out of degree `n` is `2 ^ (n - 1) * t ^ n`
below one half and `1 - 2 ^ (n - 1) * (1 - t) ^ n` from one half on. -/
def stdEaseInOut (n : ℕ) (t : α) : α :=
  if t < 1 / 2 then 2 ^ (n - 1) * t ^ n else 1 - 2 ^ (n - 1) * (1 - t) ^ n

end Standard

/-! ## Data model -/

/-- Index of an object in `scene.children`. -/
abbrev ObjId := ℕ

/-- Model of `THREE.Vector3`. -/
structure Vector3 (α : Type) where
  x : α
  y : α
  z : α

/-- Model of `THREE.Color`, represented by its hex code. -/
structure Color where
  hex : ℤ
deriving DecidableEq

/-- The material fields the program touches: `color`, `emissive`, `opacity`. -/
structure Material (α : Type) where
  color : Color
  emissive : Color
  opacity : α

/-- Model of a `THREE.Mesh` in the scene; `currentHex` is the property the pick
step adds to an object, `undefined` (`none`) until then. -/
structure Mesh (α : Type) where
  position : Vector3 α
  material : Material α
  currentHex : Option α

/-- Source: the `control` record of `initState` (lines 65-69). -/
structure Control (α : Type) where
  rotationSpeed : α
  opacity : α
  color : α

/-- Mutable program state read and written by `render` and the handlers:
`camera.position`, the table of `scene.children`, the `control` record, the
selection and `container.style.cursor`. `selected` is the binding `selected`
owned by the running chain of `render` calls: `render` assigns its own
parameter, and the callback handed to `requestAnimationFrame` reads that same
binding when the next frame starts. -/
structure State (α : Type) where
  camera : Vector3 α
  objects : ObjId → Mesh α
  control : Control α
  selected : Option ObjId
  cursor : String

/-- One marker per effect of `render`, in the order the statements run. -/
inductive Effect where
  | clockGetDelta
  | updateCamera
  | applyControl
  | requestAnimationFrame
  | pickUpdate
  | rendererRender
deriving DecidableEq

section Program

variable {α : Type} [LinearOrderedField α] [FloorRing α]

/-- Model of `Vector3.clone`. -/
def Vector3.clone (v : Vector3 α) : Vector3 α := ⟨v.x, v.y, v.z⟩

/-- Model of `Vector3.multiplyScalar`. -/
def Vector3.multiplyScalar (v : Vector3 α) (s : α) : Vector3 α :=
  ⟨v.x * s, v.y * s, v.z * s⟩

/-- Model of `Color.setHex`: the code stored is `Math.floor(hex)`. -/
def Color.setHex (h : α) : Color := ⟨⌊h⌋⟩

/-- Model of `Color.getHex`. -/
def Color.getHex (c : Color) : α := (c.hex : α)

/-- Source: `var speed = 0.05` (line 7). -/
def speed : α := 0.05

/-- Source: `var direction = new THREE.Vector3(0, -1, 0)` (line 8). -/
def direction : Vector3 α := ⟨0, -1, 0⟩

/-- Source: the module binding `const { ..., selected, ... } = state` (lines
77-92), where `initState()` gives `selected: undefined`. It is a `const`, and
`render` only ever assigns its own parameter of the same name. -/
def selected : Option ObjId := none

/-- Index of the mesh named `"cube"` in `scene.children`: `init` adds the four
spheres, then the plane, then the cube. -/
def cube : ObjId := 5

/-- Source: `selected.material.emissive.setHex(selected.currentHex)` on the
object `a`; an `undefined` argument makes three.js store black. -/
def restoreEmissive (objects : ObjId → Mesh α) (a : ObjId) : ObjId → Mesh α :=
  Function.update objects a
    { objects a with
      material :=
        { (objects a).material with
          emissive :=
            match (objects a).currentHex with
            | some h => Color.setHex h
            | none => Color.setHex (0 : α) } }

/-- Source: `onDocumentMouseDown` (lines 106-112); `rnd` is the value returned
by `Math.random()`. The test reads the module binding `selected`. -/
def onDocumentMouseDown (rnd : α) (s : State α) : State α :=
  match selected with
  | some sel =>
    let objects := Function.update s.objects sel
      { s.objects sel with currentHex := some (0x00ff00 * rnd) }
    let objects := restoreEmissive objects sel
    { s with objects := objects }
  | none => s

/-- Source: `updateCamera` (lines 203-211). The two assignments run in order,
so the second reads the `camera.position.x` written by the first.
`camera.lookAt` changes the orientation only. -/
def updateCamera (cos sin : α → α) (camera : Vector3 α) (rotSpeed : α) : Vector3 α :=
  let camera : Vector3 α :=
    { camera with x := camera.x * cos rotSpeed + camera.z * sin rotSpeed }
  let camera : Vector3 α :=
    { camera with z := camera.z * cos rotSpeed - camera.x * sin rotSpeed }
  camera

/-- Source: `if (selected) selected.material.emissive.setHex(selected.currentHex)`
(line 236), on the scene table. -/
def restoreSelected (s : State α) : ObjId → Mesh α :=
  match s.selected with
  | some old => restoreEmissive s.objects old
  | none => s.objects

/-- Source: the pick step of `render` (lines 231-253); `intersects` lists the
objects returned by `raycaster.intersectObjects`, nearest first. -/
def pickStep (intersects : List ObjId) (s : State α) : State α :=
  match intersects with
  | hit :: _ =>
    if s.selected ≠ some hit then
      let objects := restoreSelected s
      let objects := Function.update objects hit
        { objects hit with
          currentHex := some (Color.getHex (objects hit).material.emissive) }
      let objects := Function.update objects hit
        { objects hit with
          material :=
            { (objects hit).material with emissive := Color.setHex (0xff0000 : α) } }
      { s with objects := objects, selected := some hit, cursor := "pointer" }
    else s
  | [] =>
    match s.selected with
    | some old =>
      { s with objects := restoreEmissive s.objects old, selected := none, cursor := "auto" }
    | none => s

/-- Source: `render` (lines 213-256). `delta` is the value of
`clock.getDelta()`; `new THREE.Color(c)` with a number `c` is `setHex c`. The
result pairs the new state with the markers of the effects in the order they
happened; `requestAnimationFrame` only registers the callback, which runs when
the next frame starts and passes on the binding `selected` as the pick step
left it. -/
def render (cos sin : α → α) (delta : α) (intersects : List ObjId) (s : State α) :
    State α × List Effect :=
  let log := [Effect.clockGetDelta]
  let rotSpeed := delta * s.control.rotationSpeed
  let s := { s with camera := updateCamera cos sin s.camera rotSpeed }
  let log := log ++ [Effect.updateCamera]
  let s :=
    { s with
      objects :=
        Function.update s.objects cube
          { s.objects cube with
            material := { (s.objects cube).material with opacity := s.control.opacity } } }
  let s :=
    { s with
      objects :=
        Function.update s.objects cube
          { s.objects cube with
            material :=
              { (s.objects cube).material with color := Color.setHex s.control.color } } }
  let log := log ++ [Effect.applyControl]
  let log := log ++ [Effect.requestAnimationFrame]
  let s := pickStep intersects s
  let log := log ++ [Effect.pickUpdate]
  let log := log ++ [Effect.rendererRender]
  (s, log)

/-- Source: `move` (lines 263-288), called with the current values of the
module variables `speed` and `direction`. Returns the new value of `speed` and
the callback given to `tap`, which is run once per emission of the interval. -/
def move (speed : α) (direction : Vector3 α) : α × (List (Mesh α) → List (Mesh α)) :=
  let vector := (Vector3.clone direction).multiplyScalar speed
  let step := fun (spheres : List (Mesh α)) =>
    spheres.map fun s =>
      let s := { s with position := { s.position with x := s.position.x + vector.x } }
      let s := { s with position := { s.position with y := s.position.y + vector.y } }
      let s := { s with position := { s.position with z := s.position.z + vector.z } }
      s
  let speed := EasingFunctions.linear speed
  (speed, step)

/-- Events that drive the state: a frame tick, with the clock delta and the
ray-cast result, and a press, with the value of `Math.random()`. -/
inductive Event (α : Type) where
  | tick (delta : α) (intersects : List ObjId)
  | press (rnd : α)

/-- One event applied to the state. -/
def step (cos sin : α → α) (s : State α) : Event α → State α
  | Event.tick delta intersects => (render cos sin delta intersects s).1
  | Event.press rnd => onDocumentMouseDown rnd s

/-- Observer of highlight entry: next to the state it keeps the emissive colour
that the selected object had in the state just before the event that selected
it, and nothing while no object is selected. -/
def track (cos sin : α → α) (p : State α × Option Color) (e : Event α) :
    State α × Option Color :=
  let s := step cos sin p.1 e
  (s, if s.selected = p.1.selected then p.2
      else s.selected.map fun a => (p.1.objects a).material.emissive)

/-- The state after a sequence of events. -/
def run (cos sin : α → α) (s : State α) (events : List (Event α)) : State α :=
  events.foldl (step cos sin) s

/-- The emissive colour that the object selected at the end of `events` had
immediately before the event that highlighted it (`none` when nothing is
selected), for a run that starts without a selection. -/
def entryEmissive (cos sin : α → α) (s : State α) (events : List (Event α)) :
    Option Color :=
  (events.foldl (track cos sin) (s, none)).2

/-- The scene as `init` leaves it: four spheres, the plane and the cube, black
emissive, camera at (15, 16, 13), nothing selected. -/
def initScene : State α where
  camera := ⟨15, 16, 13⟩
  objects := fun i =>
    { position :=
        if i < 4 then ⟨(i : α) * 5, 8, 0⟩ else if i = 4 then ⟨0, -2, 0⟩ else ⟨0, 0, 0⟩
      material :=
        { color := Color.setHex (if i < 4 then (0x2194ce : α)
            else if i = 4 then 0xcccccc else 0x086113)
          emissive := Color.setHex (0x000000 : α)
          opacity := 1 }
      currentHex := none }
  control := { rotationSpeed := 0.5, opacity := 1, color := 0x086113 }
  selected := selected
  cursor := ""

/-- The order of effects the specification gives for one tick: clock, camera
orbit, controls, pick update, submission to the renderer, then scheduling. -/
def specOrder : List Effect :=
  [Effect.clockGetDelta, Effect.updateCamera, Effect.applyControl, Effect.pickUpdate,
    Effect.rendererRender, Effect.requestAnimationFrame]

end Program

/-! ## Easing table -/

section EasingTheorems

variable {α : Type} [LinearOrderedField α]

open EasingFunctions

theorem half_eq : (0.5 : α) = 1 / 2 := by norm_num

/-- C5: each of the 13 functions of `EasingFunctions` maps 0 to 0 and 1 to 1. -/
theorem easing_boundary :
    (linear (0 : α) = 0 ∧ linear (1 : α) = 1) ∧
    (easeInQuad (0 : α) = 0 ∧ easeInQuad (1 : α) = 1) ∧
    (easeOutQuad (0 : α) = 0 ∧ easeOutQuad (1 : α) = 1) ∧
    (easeInOutQuad (0 : α) = 0 ∧ easeInOutQuad (1 : α) = 1) ∧
    (easeInCubic (0 : α) = 0 ∧ easeInCubic (1 : α) = 1) ∧
    (easeOutCubic (0 : α) = 0 ∧ easeOutCubic (1 : α) = 1) ∧
    (easeInOutCubic (0 : α) = 0 ∧ easeInOutCubic (1 : α) = 1) ∧
    (easeInQuart (0 : α) = 0 ∧ easeInQuart (1 : α) = 1) ∧
    (easeOutQuart (0 : α) = 0 ∧ easeOutQuart (1 : α) = 1) ∧
    (easeInOutQuart (0 : α) = 0 ∧ easeInOutQuart (1 : α) = 1) ∧
    (easeInQuint (0 : α) = 0 ∧ easeInQuint (1 : α) = 1) ∧
    (easeOutQuint (0 : α) = 0 ∧ easeOutQuint (1 : α) = 1) ∧
    (easeInOutQuint (0 : α) = 0 ∧ easeInOutQuint (1 : α) = 1) := by
  refine ⟨⟨?_, ?_⟩, ⟨?_, ?_⟩, ⟨?_, ?_⟩, ⟨?_, ?_⟩, ⟨?_, ?_⟩, ⟨?_, ?_⟩, ⟨?_, ?_⟩,
    ⟨?_, ?_⟩, ⟨?_, ?_⟩, ⟨?_, ?_⟩, ⟨?_, ?_⟩, ⟨?_, ?_⟩, ⟨?_, ?_⟩⟩ <;>
  norm_num [linear, easeInQuad, easeOutQuad, easeInOutQuad, easeInCubic, easeOutCubic,
    easeInOutCubic, easeInQuart, easeOutQuart, easeInOutQuart, easeInQuint, easeOutQuint,
    easeInOutQuint]

/-- C6: for every `t`, `linear t = t` and, for the degrees 2 to 5 (Quad, Cubic,
Quart, Quint), the ease-in, ease-out and ease-in-out functions of the table
equal the standard polynomial formulas, the variants written with `--t`
included. -/
theorem easing_standard (t : α) :
    linear t = t ∧
    (easeInQuad t = stdEaseIn 2 t ∧ easeOutQuad t = stdEaseOut 2 t ∧
      easeInOutQuad t = stdEaseInOut 2 t) ∧
    (easeInCubic t = stdEaseIn 3 t ∧ easeOutCubic t = stdEaseOut 3 t ∧
      easeInOutCubic t = stdEaseInOut 3 t) ∧
    (easeInQuart t = stdEaseIn 4 t ∧ easeOutQuart t = stdEaseOut 4 t ∧
      easeInOutQuart t = stdEaseInOut 4 t) ∧
    (easeInQuint t = stdEaseIn 5 t ∧ easeOutQuint t = stdEaseOut 5 t ∧
      easeInOutQuint t = stdEaseInOut 5 t) := by
  refine ⟨rfl, ⟨?_, ?_, ?_⟩, ⟨?_, ?_, ?_⟩, ⟨?_, ?_, ?_⟩, ⟨?_, ?_, ?_⟩⟩
  · simp only [easeInQuad, stdEaseIn]; ring
  · simp only [easeOutQuad, stdEaseOut]; ring
  · simp only [easeInOutQuad, stdEaseInOut, half_eq]; split_ifs <;> ring
  · simp only [easeInCubic, stdEaseIn]; ring
  · simp only [easeOutCubic, stdEaseOut]; ring
  · simp only [easeInOutCubic, stdEaseInOut, half_eq]; split_ifs <;> ring
  · simp only [easeInQuart, stdEaseIn]; ring
  · simp only [easeOutQuart, stdEaseOut]; ring
  · simp only [easeInOutQuart, stdEaseInOut, half_eq]; split_ifs <;> ring
  · simp only [easeInQuint, stdEaseIn]; ring
  · simp only [easeOutQuint, stdEaseOut]; ring
  · simp only [easeInOutQuint, stdEaseInOut, half_eq]; split_ifs <;> ring

end EasingTheorems

/-! ## Translation animator -/

section MoveTheorems

variable {α : Type} [LinearOrderedField α]

theorem move_step_positions (v : Vector3 α) (k : α) (spheres : List (Mesh α)) (n : ℕ) :
    (((move k v).2)^[n] spheres).map Mesh.position =
      spheres.map fun s =>
        (⟨s.position.x + n * (v.x * k), s.position.y + n * (v.y * k),
          s.position.z + n * (v.z * k)⟩ : Vector3 α) := by
  induction n with
  | zero =>
    simp
  | succ n ih =>
    rw [Function.iterate_succ_apply']
    have hstep : ∀ l : List (Mesh α), ((move k v).2 l).map Mesh.position =
        (l.map Mesh.position).map fun p =>
          (⟨p.x + v.x * k, p.y + v.y * k, p.z + v.z * k⟩ : Vector3 α) := by
      intro l
      simp [move, Vector3.clone, Vector3.multiplyScalar, Function.comp_def]
    rw [hstep, ih, List.map_map]
    apply List.map_congr_left
    intro s _
    simp only [Function.comp_apply, Vector3.mk.injEq]
    push_cast
    refine ⟨?_, ?_, ?_⟩ <;> ring

/-- C7: after `n` runs of the callback started by `move`, every object of the
batch is at its starting position plus `n * direction * speed` componentwise,
with `direction = (0, -1, 0)` and `speed = 0.05`; after 600 runs that is 30
down, after 300 runs 15 down. -/
theorem move_displacement (spheres : List (Mesh α)) :
    (∀ n : ℕ, (((move speed direction).2)^[n] spheres).map Mesh.position =
      spheres.map fun s =>
        (⟨s.position.x + n * ((direction : Vector3 α).x * speed),
          s.position.y + n * ((direction : Vector3 α).y * speed),
          s.position.z + n * ((direction : Vector3 α).z * speed)⟩ : Vector3 α)) ∧
    (((move speed direction).2)^[600] spheres).map Mesh.position =
      spheres.map (fun s => (⟨s.position.x, s.position.y - 30, s.position.z⟩ : Vector3 α)) ∧
    (((move speed direction).2)^[300] spheres).map Mesh.position =
      spheres.map (fun s => (⟨s.position.x, s.position.y - 15, s.position.z⟩ : Vector3 α)) := by
  refine ⟨fun n => move_step_positions direction speed spheres n, ?_, ?_⟩
  · rw [move_step_positions]
    apply List.map_congr_left
    intro s _
    simp only [Vector3.mk.injEq, direction, speed]
    refine ⟨?_, ?_, ?_⟩ <;> norm_num
    ring
  · rw [move_step_positions]
    apply List.map_congr_left
    intro s _
    simp only [Vector3.mk.injEq, direction, speed]
    refine ⟨?_, ?_, ?_⟩ <;> norm_num
    ring

end MoveTheorems

/-! ## Pick state and frame driver -/

section PickTheorems

variable {α : Type} [LinearOrderedField α] [FloorRing α]

theorem setHex_getHex (c : Color) : Color.setHex (Color.getHex c : α) = c := by
  simp [Color.setHex, Color.getHex]

theorem setHex_highlight : Color.setHex (0xff0000 : α) = ⟨0xff0000⟩ := by
  simp [Color.setHex]

theorem pickStep_same (s : State α) (A : ObjId) (others : List ObjId)
    (h : s.selected = some A) : pickStep (A :: others) s = s := by
  simp [pickStep, restoreSelected, h]

theorem pickStep_control (intersects : List ObjId) (s : State α) :
    (pickStep intersects s).control = s.control := by
  unfold pickStep
  split
  · split_ifs <;> rfl
  · split <;> rfl

theorem pickStep_camera (intersects : List ObjId) (s : State α) :
    (pickStep intersects s).camera = s.camera := by
  unfold pickStep
  split
  · split_ifs <;> rfl
  · split <;> rfl

theorem restoreEmissive_opacity (objects : ObjId → Mesh α) (a b : ObjId) :
    (restoreEmissive objects a b).material.opacity = (objects b).material.opacity := by
  unfold restoreEmissive
  by_cases hb : b = a
  · subst hb; simp
  · simp [Function.update_noteq hb]

theorem restoreEmissive_color (objects : ObjId → Mesh α) (a b : ObjId) :
    (restoreEmissive objects a b).material.color = (objects b).material.color := by
  unfold restoreEmissive
  by_cases hb : b = a
  · subst hb; simp
  · simp [Function.update_noteq hb]

theorem pickStep_opacity (intersects : List ObjId) (s : State α) (b : ObjId) :
    ((pickStep intersects s).objects b).material.opacity = (s.objects b).material.opacity := by
  cases intersects with
  | nil =>
    cases hs : s.selected <;> simp [pickStep, restoreSelected, hs, restoreEmissive_opacity]
  | cons hit tl =>
    by_cases hsel : s.selected = some hit
    · simp [pickStep, restoreSelected, hsel]
    · by_cases hb : b = hit
      · subst hb
        cases hs : s.selected <;> simp_all [pickStep, restoreSelected, restoreEmissive_opacity]
      · cases hs : s.selected <;>
          simp_all [pickStep, restoreSelected, Function.update_noteq hb, restoreEmissive_opacity]

theorem pickStep_color (intersects : List ObjId) (s : State α) (b : ObjId) :
    ((pickStep intersects s).objects b).material.color = (s.objects b).material.color := by
  cases intersects with
  | nil =>
    cases hs : s.selected <;> simp [pickStep, restoreSelected, hs, restoreEmissive_color]
  | cons hit tl =>
    by_cases hsel : s.selected = some hit
    · simp [pickStep, restoreSelected, hsel]
    · by_cases hb : b = hit
      · subst hb
        cases hs : s.selected <;> simp_all [pickStep, restoreSelected, restoreEmissive_color]
      · cases hs : s.selected <;>
          simp_all [pickStep, restoreSelected, Function.update_noteq hb, restoreEmissive_color]

/-- C10: after one call of `render` the cube material has the opacity of the
control record and the colour built from `control.color`, whatever they were
before, and the control record is unchanged; with material opacity 1 and
`control.opacity = 0.4` the opacity after one tick is 0.4. -/
theorem render_applies_control (cos sin : α → α) (delta : α) (intersects : List ObjId) :
    (∀ s : State α,
      (((render cos sin delta intersects s).1).objects cube).material.opacity
          = s.control.opacity ∧
      (((render cos sin delta intersects s).1).objects cube).material.color
          = Color.setHex s.control.color ∧
      ((render cos sin delta intersects s).1).control = s.control) ∧
    ((initScene : State α).objects cube).material.opacity = 1 ∧
    (((render cos sin delta intersects
        { (initScene : State α) with
          control := { (initScene : State α).control with opacity := 0.4 } }).1).objects
        cube).material.opacity = 0.4 := by
  have key : ∀ s : State α,
      (((render cos sin delta intersects s).1).objects cube).material.opacity
          = s.control.opacity ∧
      (((render cos sin delta intersects s).1).objects cube).material.color
          = Color.setHex s.control.color ∧
      ((render cos sin delta intersects s).1).control = s.control := by
    intro s
    simp [render, pickStep_opacity, pickStep_color, pickStep_control]
  refine ⟨key, ?_, ?_⟩
  · simp [initScene]
  · rw [(key _).1]

/-- C8, as the code has it: within one call of `render` the clock is read, the
camera orbit runs, the controls are copied onto the cube material, the next
tick is scheduled with `requestAnimationFrame`, the pick update runs, and the
scene is submitted to the renderer, in this order. -/
theorem render_effect_order (cos sin : α → α) (delta : α) (intersects : List ObjId)
    (s : State α) :
    (render cos sin delta intersects s).2 =
      [Effect.clockGetDelta, Effect.updateCamera, Effect.applyControl,
        Effect.requestAnimationFrame, Effect.pickUpdate, Effect.rendererRender] := by
  simp [render]

/-- C8 fails as stated: on the first tick of the initial scene, with no object
under the pointer, the next tick is scheduled before the pick update and the
submission to the renderer, not after them. -/
theorem render_effect_order_counterexample :
    (render Real.cos Real.sin 0.016 [] (initScene : State ℝ)).2 ≠ specOrder := by
  simp [render, specOrder]

end PickTheorems

/-! ## Camera orbit -/

section CameraTheorems

theorem updateCamera_eq {α : Type} [LinearOrderedField α] (cos sin : α → α)
    (camera : Vector3 α) (rot : α) :
    updateCamera cos sin camera rot =
      ⟨camera.x * cos rot + camera.z * sin rot, camera.y,
        camera.z * cos rot - (camera.x * cos rot + camera.z * sin rot) * sin rot⟩ := rfl

/-- C1, evaluated on the code: from the position (15, 16, 13) with
`rot = 0.016 * 0.5`, `updateCamera` leaves `x' = 15 cos rot + 13 sin rot` and
`z' = 13 cos rot - x' sin rot`, computed from the already updated `x'`, and this
`z'` differs from the value `13 cos rot - 15 sin rot` of the rotation formula. -/
theorem updateCamera_reads_updated_x :
    (updateCamera Real.cos Real.sin ⟨15, 16, 13⟩ (0.016 * 0.5)).x =
      15 * Real.cos (0.016 * 0.5) + 13 * Real.sin (0.016 * 0.5) ∧
    (updateCamera Real.cos Real.sin ⟨15, 16, 13⟩ (0.016 * 0.5)).z =
      13 * Real.cos (0.016 * 0.5) -
        (15 * Real.cos (0.016 * 0.5) + 13 * Real.sin (0.016 * 0.5)) * Real.sin (0.016 * 0.5) ∧
    (updateCamera Real.cos Real.sin ⟨15, 16, 13⟩ (0.016 * 0.5)).z ≠
      13 * Real.cos (0.016 * 0.5) - 15 * Real.sin (0.016 * 0.5) := by
  refine ⟨rfl, rfl, ?_⟩
  rw [updateCamera_eq]
  show (13 : ℝ) * Real.cos (0.016 * 0.5) -
      (15 * Real.cos (0.016 * 0.5) + 13 * Real.sin (0.016 * 0.5)) * Real.sin (0.016 * 0.5) ≠
    13 * Real.cos (0.016 * 0.5) - 15 * Real.sin (0.016 * 0.5)
  have hr : (0.016 * 0.5 : ℝ) = 1 / 125 := by norm_num
  rw [hr]
  have hsin : (1 / 125 : ℝ) - (1 / 125) ^ 3 / 4 < Real.sin (1 / 125) :=
    Real.sin_gt_sub_cube (by norm_num) (by norm_num)
  have hcos : 1 - (1 / 125 : ℝ) ^ 2 / 2 ≤ Real.cos (1 / 125) :=
    Real.one_sub_sq_div_two_le_cos
  have hpos : 0 < Real.sin (1 / 125) := lt_trans (by norm_num) hsin
  have hgap : 0 < 15 * Real.cos (1 / 125) + 13 * Real.sin (1 / 125) - 15 := by
    norm_num at hsin hcos
    linarith
  intro h
  have hzero : (15 * Real.cos (1 / 125) + 13 * Real.sin (1 / 125) - 15) *
      Real.sin (1 / 125) = 0 := by linarith
  rcases mul_eq_zero.mp hzero with h1 | h1
  · exact absurd h1 (ne_of_gt hgap)
  · exact absurd h1 (ne_of_gt hpos)

end CameraTheorems

/-! ## Highlight transitions -/

section HighlightTheorems

variable {α : Type} [LinearOrderedField α] [FloorRing α]

theorem restoreEmissive_self (objects : ObjId → Mesh α) (a : ObjId) (c : Color)
    (h : (objects a).currentHex = some (Color.getHex c)) :
    (restoreEmissive objects a a).material.emissive = c := by
  simp [restoreEmissive, h, setHex_getHex]

theorem restoreEmissive_other (objects : ObjId → Mesh α) (a b : ObjId) (h : b ≠ a) :
    restoreEmissive objects a b = objects b := by
  simp [restoreEmissive, Function.update_noteq h]

theorem restoreEmissive_currentHex (objects : ObjId → Mesh α) (a b : ObjId) :
    (restoreEmissive objects a b).currentHex = (objects b).currentHex := by
  by_cases hb : b = a
  · subst hb; simp [restoreEmissive]
  · rw [restoreEmissive_other objects a b hb]

theorem pickStep_cons_selected (s : State α) (hit : ObjId) (tl : List ObjId) :
    (pickStep (hit :: tl) s).selected = some hit := by
  by_cases h : s.selected = some hit <;> simp [pickStep, restoreSelected, h]

theorem pickStep_nil_selected (s : State α) : (pickStep [] s).selected = none := by
  cases h : s.selected <;> simp [pickStep, restoreSelected, h]

theorem pickStep_enter_emissive (s : State α) (hit : ObjId) (tl : List ObjId)
    (h : s.selected ≠ some hit) :
    ((pickStep (hit :: tl) s).objects hit).material.emissive = ⟨0xff0000⟩ := by
  simp [pickStep, restoreSelected, h, Color.setHex]

theorem pickStep_enter_currentHex (s : State α) (hit : ObjId) (tl : List ObjId)
    (h : s.selected ≠ some hit) :
    ((pickStep (hit :: tl) s).objects hit).currentHex =
      some (Color.getHex (s.objects hit).material.emissive) := by
  cases hs : s.selected with
  | none => simp [pickStep, restoreSelected, hs]
  | some old =>
    have hne : hit ≠ old := by
      intro e; apply h; rw [hs, e]
    simp [pickStep, restoreSelected, hs, Ne.symm hne, restoreEmissive_other _ _ _ hne]

theorem pickStep_enter_old (s : State α) (hit old : ObjId) (tl : List ObjId)
    (hs : s.selected = some old) (hne : old ≠ hit) :
    (pickStep (hit :: tl) s).objects old = restoreEmissive s.objects old old := by
  simp [pickStep, restoreSelected, hs, hne, Function.update_noteq hne]

theorem pickStep_nil_old (s : State α) (old : ObjId) (hs : s.selected = some old) :
    (pickStep [] s).objects old = restoreEmissive s.objects old old := by
  simp [pickStep, restoreSelected, hs]

theorem pickStep_enter_untouched (s : State α) (hit b : ObjId) (tl : List ObjId)
    (hb : b ≠ hit) (hsel : s.selected ≠ some b) :
    (pickStep (hit :: tl) s).objects b = s.objects b := by
  by_cases h : s.selected = some hit
  · simp [pickStep, restoreSelected, h]
  · cases hs : s.selected with
    | none => simp [pickStep, restoreSelected, hs, Function.update_noteq hb]
    | some old =>
      have hbo : b ≠ old := by
        intro e; apply hsel; rw [hs, e]
      have hoh : old ≠ hit := by
        intro e; apply h; rw [hs, e]
      simp [pickStep, restoreSelected, hs, hoh, Function.update_noteq hb,
        restoreEmissive_other _ _ _ hbo]

/-- C2: from a state with no selection and for distinct objects `A` and `B`,
three runs of the pick step with nearest hit `A`, then `B`, then none leave
`selected` equal to `A`, then `B`, then empty; after the first run the emissive
of `A` is 0xff0000, after the second the emissive of `A` is back to its value
before the first run and that of `B` is 0xff0000, and after the third the
emissive of `B` is back to its value before the second run. -/
theorem pick_sequence (s : State α) (A B : ObjId) (tlA tlB : List ObjId)
    (h0 : s.selected = none) (hAB : A ≠ B) :
    (pickStep (A :: tlA) s).selected = some A ∧
    (pickStep (B :: tlB) (pickStep (A :: tlA) s)).selected = some B ∧
    (pickStep [] (pickStep (B :: tlB) (pickStep (A :: tlA) s))).selected = none ∧
    ((pickStep (A :: tlA) s).objects A).material.emissive = ⟨0xff0000⟩ ∧
    ((pickStep (B :: tlB) (pickStep (A :: tlA) s)).objects A).material.emissive =
      (s.objects A).material.emissive ∧
    ((pickStep (B :: tlB) (pickStep (A :: tlA) s)).objects B).material.emissive =
      ⟨0xff0000⟩ ∧
    ((pickStep [] (pickStep (B :: tlB) (pickStep (A :: tlA) s))).objects B).material.emissive =
      ((pickStep (A :: tlA) s).objects B).material.emissive := by
  have hA : s.selected ≠ some A := by simp [h0]
  have h1 : (pickStep (A :: tlA) s).selected = some A := pickStep_cons_selected s A tlA
  have h1B : (pickStep (A :: tlA) s).selected ≠ some B := by
    rw [h1]; intro e; exact hAB (Option.some.inj e)
  have h2 : (pickStep (B :: tlB) (pickStep (A :: tlA) s)).selected = some B :=
    pickStep_cons_selected _ B tlB
  refine ⟨h1, h2, pickStep_nil_selected _, pickStep_enter_emissive s A tlA hA, ?_,
    pickStep_enter_emissive _ B tlB h1B, ?_⟩
  · rw [pickStep_enter_old _ B A tlB h1 hAB]
    exact restoreEmissive_self _ A _ (pickStep_enter_currentHex s A tlA hA)
  · rw [pickStep_nil_old _ B h2]
    exact restoreEmissive_self _ B _ (pickStep_enter_currentHex _ B tlB h1B)

/-- C2 at the initial scene, hovering sphere 0, then sphere 1, then nothing. -/
theorem pick_sequence_witness :
    (pickStep [0] (initScene : State ℚ)).selected = some 0 ∧
    (pickStep [1] (pickStep [0] (initScene : State ℚ))).selected = some 1 ∧
    (pickStep [] (pickStep [1] (pickStep [0] (initScene : State ℚ)))).selected = none ∧
    ((pickStep [0] (initScene : State ℚ)).objects 0).material.emissive = ⟨0xff0000⟩ ∧
    ((pickStep [1] (pickStep [0] (initScene : State ℚ))).objects 0).material.emissive =
      ((initScene : State ℚ).objects 0).material.emissive ∧
    ((pickStep [1] (pickStep [0] (initScene : State ℚ))).objects 1).material.emissive =
      ⟨0xff0000⟩ ∧
    ((pickStep [] (pickStep [1] (pickStep [0] (initScene : State ℚ)))).objects
        1).material.emissive =
      ((pickStep [0] (initScene : State ℚ)).objects 1).material.emissive :=
  pick_sequence initScene 0 1 [] [] rfl (by decide)

/-- C9: when `A` is selected and the nearest hit of the frame is `A` again, the
pick step returns the state unchanged (selection, saved emissive, every
emissive); and for any state and any hit result, running the pick step twice
gives the same state as running it once. -/
theorem pick_same_noop (s : State α) (A : ObjId) (tl : List ObjId)
    (h : s.selected = some A) :
    pickStep (A :: tl) s = s ∧
    ∀ (t : State α) (intersects : List ObjId),
      pickStep intersects (pickStep intersects t) = pickStep intersects t := by
  refine ⟨pickStep_same s A tl h, ?_⟩
  intro t intersects
  cases intersects with
  | nil =>
    have hn := pickStep_nil_selected t
    generalize pickStep [] t = u at hn ⊢
    simp [pickStep, restoreSelected, hn]
  | cons hit rest =>
    exact pickStep_same _ hit rest (pickStep_cons_selected t hit rest)

/-- C9 at the initial scene after sphere 0 has been highlighted. -/
theorem pick_same_noop_witness :
    pickStep [0] (pickStep [0] (initScene : State ℚ)) = pickStep [0] (initScene : State ℚ) ∧
    ∀ (t : State ℚ) (intersects : List ObjId),
      pickStep intersects (pickStep intersects t) = pickStep intersects t :=
  pick_same_noop (pickStep [0] initScene) 0 [] (pickStep_cons_selected initScene 0 [])

/-- C4, evaluated on the code: `onDocumentMouseDown` tests the module binding
`selected`, which stays `undefined`, so a press returns every state unchanged;
in the initial scene with sphere 0 highlighted by the pick step, a press with
`Math.random() = 0.5` leaves the emissive of sphere 0 at 0xff0000 and not at
the colour of `0x00ff00 * 0.5`. -/
theorem press_is_noop :
    (∀ (rnd : ℚ) (s : State ℚ), onDocumentMouseDown rnd s = s) ∧
    (pickStep [0] (initScene : State ℚ)).selected = some 0 ∧
    ((onDocumentMouseDown 0.5 (pickStep [0] (initScene : State ℚ))).objects
        0).material.emissive = ⟨0xff0000⟩ ∧
    ((onDocumentMouseDown 0.5 (pickStep [0] (initScene : State ℚ))).objects
        0).material.emissive ≠ Color.setHex (0x00ff00 * 0.5 : ℚ) := by
  have hno : ∀ (rnd : ℚ) (s : State ℚ), onDocumentMouseDown rnd s = s := by
    intro rnd s
    simp [onDocumentMouseDown, selected]
  have hsel : (initScene : State ℚ).selected ≠ some 0 := by
    simp [initScene, selected]
  refine ⟨hno, pickStep_cons_selected _ 0 [], ?_, ?_⟩
  · rw [hno]
    exact pickStep_enter_emissive _ 0 [] hsel
  · rw [hno, pickStep_enter_emissive _ 0 [] hsel]
    have hv : (0x00ff00 * 0.5 : ℚ) = 32640 := by norm_num
    rw [hv]
    simp [Color.setHex]

end HighlightTheorems

/-! ## The saved emissive colour -/

section InvariantTheorems

variable {α : Type} [LinearOrderedField α] [FloorRing α]

theorem onDocumentMouseDown_eq (rnd : α) (s : State α) : onDocumentMouseDown rnd s = s := by
  simp [onDocumentMouseDown, selected]

theorem render_fst (cos sin : α → α) (delta : α) (intersects : List ObjId) (s : State α) :
    ∃ m : State α, (render cos sin delta intersects s).1 = pickStep intersects m ∧
      m.selected = s.selected ∧
      (∀ b, (m.objects b).currentHex = (s.objects b).currentHex) ∧
      (∀ b, (m.objects b).material.emissive = (s.objects b).material.emissive) := by
  refine ⟨_, rfl, rfl, ?_, ?_⟩
  · intro b
    by_cases hb : b = cube
    · subst hb; simp
    · simp [Function.update_noteq hb]
  · intro b
    by_cases hb : b = cube
    · subst hb; simp
    · simp [Function.update_noteq hb]

theorem track_fst (cos sin : α → α) (events : List (Event α)) (p : State α × Option Color) :
    (events.foldl (track cos sin) p).1 = run cos sin p.1 events := by
  induction events generalizing p with
  | nil => rfl
  | cons e es ih =>
    simp only [List.foldl_cons, run]
    rw [ih]
    rfl

/-- The invariant carried along a run: the saved colour of the selected object
is the colour recorded at its highlight entry. -/
theorem track_invariant (cos sin : α → α) (p : State α × Option Color) (e : Event α)
    (hp : ∀ a, p.1.selected = some a →
      ∃ v : Color, p.2 = some v ∧ (p.1.objects a).currentHex = some (Color.getHex v)) :
    ∀ a, (track cos sin p e).1.selected = some a →
      ∃ v : Color, (track cos sin p e).2 = some v ∧
        ((track cos sin p e).1.objects a).currentHex = some (Color.getHex v) := by
  intro a ha
  cases e with
  | press rnd =>
    have hs : step cos sin p.1 (Event.press rnd) = p.1 := onDocumentMouseDown_eq rnd p.1
    simp only [track, hs, if_true] at ha ⊢
    exact hp a ha
  | tick delta intersects =>
    obtain ⟨m, hm, hsel, hcur, hemi⟩ := render_fst cos sin delta intersects p.1
    have hs : step cos sin p.1 (Event.tick delta intersects) = pickStep intersects m := hm
    simp only [track, hs] at ha ⊢
    cases intersects with
    | nil =>
      rw [pickStep_nil_selected] at ha
      exact absurd ha (by simp)
    | cons hit tl =>
      rw [pickStep_cons_selected] at ha
      have hah : hit = a := Option.some.inj ha
      subst hah
      rw [pickStep_cons_selected]
      by_cases hms : m.selected = some hit
      · rw [pickStep_same m hit tl hms, hcur]
        rw [hsel] at hms
        simp only [hms, if_true]
        exact hp hit hms
      · have hne : ¬ (some hit = p.1.selected) := by
          intro e
          apply hms
          rw [hsel, e]
        rw [if_neg hne, pickStep_enter_currentHex m hit tl hms, hemi]
        exact ⟨_, rfl, rfl⟩

theorem foldl_track_invariant (cos sin : α → α) (events : List (Event α))
    (p : State α × Option Color)
    (hp : ∀ a, p.1.selected = some a →
      ∃ v : Color, p.2 = some v ∧ (p.1.objects a).currentHex = some (Color.getHex v)) :
    ∀ a, (events.foldl (track cos sin) p).1.selected = some a →
      ∃ v : Color, (events.foldl (track cos sin) p).2 = some v ∧
        ((events.foldl (track cos sin) p).1.objects a).currentHex =
          some (Color.getHex v) := by
  induction events generalizing p with
  | nil => exact hp
  | cons e es ih =>
    simp only [List.foldl_cons]
    exact ih _ (track_invariant cos sin p e hp)

/-- C3: in every state reached from a state without selection by frame ticks
(any clock delta, any ray-cast result) and presses, if an object is selected
then its saved emissive `currentHex` is the emissive it had immediately before
the event that highlighted it, and both exit actions of the pick step (no hit,
or another object hit) give it back exactly that emissive. -/
theorem saved_emissive_invariant (cos sin : α → α) (s : State α) (events : List (Event α))
    (a : ObjId) (h0 : s.selected = none)
    (ha : (run cos sin s events).selected = some a) :
    ∃ v : Color, entryEmissive cos sin s events = some v ∧
      ((run cos sin s events).objects a).currentHex = some (Color.getHex v) ∧
      ((pickStep [] (run cos sin s events)).objects a).material.emissive = v ∧
      ∀ (hit : ObjId) (tl : List ObjId), hit ≠ a →
        ((pickStep (hit :: tl) (run cos sin s events)).objects a).material.emissive = v := by
  have hinit : ∀ b, (s, (none : Option Color)).1.selected = some b →
      ∃ v : Color, (s, (none : Option Color)).2 = some v ∧
        ((s, (none : Option Color)).1.objects b).currentHex = some (Color.getHex v) := by
    intro b hb
    simp [h0] at hb
  have hfst := track_fst cos sin events (s, none)
  have hinv := foldl_track_invariant cos sin events (s, none) hinit a
  rw [hfst] at hinv
  obtain ⟨v, hv, hcur⟩ := hinv ha
  refine ⟨v, hv, hcur, ?_, ?_⟩
  · rw [pickStep_nil_old _ a ha]
    exact restoreEmissive_self _ a v hcur
  · intro hit tl hne
    rw [pickStep_enter_old _ hit a tl ha (Ne.symm hne)]
    exact restoreEmissive_self _ a v hcur

/-- C3 on the initial scene: a tick that highlights sphere 0, a press, and a
second tick over the same sphere. -/
theorem saved_emissive_invariant_witness :
    ∃ v : Color,
      entryEmissive Real.cos Real.sin (initScene : State ℝ)
        [Event.tick 0.016 [0], Event.press 0.5, Event.tick 0.016 [0]] = some v ∧
      ((run Real.cos Real.sin (initScene : State ℝ)
        [Event.tick 0.016 [0], Event.press 0.5, Event.tick 0.016 [0]]).objects
          0).currentHex = some (Color.getHex v) ∧
      ((pickStep [] (run Real.cos Real.sin (initScene : State ℝ)
        [Event.tick 0.016 [0], Event.press 0.5, Event.tick 0.016 [0]])).objects
          0).material.emissive = v ∧
      ∀ (hit : ObjId) (tl : List ObjId), hit ≠ 0 →
        ((pickStep (hit :: tl) (run Real.cos Real.sin (initScene : State ℝ)
          [Event.tick 0.016 [0], Event.press 0.5, Event.tick 0.016 [0]])).objects
            0).material.emissive = v :=
  saved_emissive_invariant Real.cos Real.sin initScene
    [Event.tick 0.016 [0], Event.press 0.5, Event.tick 0.016 [0]] 0 rfl rfl

end InvariantTheorems

end ThreeHello
